import Mathlib

/-!
Verification of the OS21Tx Oregon Scientific v2.1 transmitter firmware
(OS21Tx.h, DHTWrapper.h, sensor.ino).

Shallow embedding conventions:
* `uint8_t` bytes are `Nat` values kept below 256 by the masking the source
  itself performs; the 12-byte frame `uint8_t data[DATA_LEN]` is a record of
  twelve byte fields.
* The checksum functions receive the frame as a byte-access function
  `Nat → Nat`, mirroring the decayed `const uint8_t data[]` pointer.
* `float` temperature/humidity inputs are modelled as exact rationals `ℚ`;
  the C cast `(int)` applied to a non-negative value truncates toward zero,
  which is `⌊·⌋`, computed here as `num / den` of the rational.  Every cast
  the source performs is applied to a non-negative operand on the input
  ranges the specification quantifies over.
* Pin writes are collected as a `List Bool` trace (`true` = HIGH).
-/

set_option maxRecDepth 8000

namespace OS21

/-! ### Compile-time constants (OS21Tx.h) -/

def DATA_LEN : Nat := 12

def SUM_MASK : Nat := 0xfffe0

def CRC_MASK : Nat := 0xff3e0

def CRC_IV : Nat := 0x42

def CRC_POLY : Nat := 0x7

/-! ### The frame buffer -/

/-- The 12-byte data frame `uint8_t data[DATA_LEN]`. -/
structure Frame where
  b0 : Nat
  b1 : Nat
  b2 : Nat
  b3 : Nat
  b4 : Nat
  b5 : Nat
  b6 : Nat
  b7 : Nat
  b8 : Nat
  b9 : Nat
  b10 : Nat
  b11 : Nat
deriving DecidableEq

/-- `data[i]` for `i < 12`; out-of-range reads return 0 (the C source never
performs one with the masks it uses, which claim C10 establishes). -/
def byteAt (f : Frame) : Nat → Nat
  | 0 => f.b0
  | 1 => f.b1
  | 2 => f.b2
  | 3 => f.b3
  | 4 => f.b4
  | 5 => f.b5
  | 6 => f.b6
  | 7 => f.b7
  | 8 => f.b8
  | 9 => f.b9
  | 10 => f.b10
  | 11 => f.b11
  | _ => 0

/-- The frame as a byte list, in array order. -/
def toList (f : Frame) : List Nat :=
  [f.b0, f.b1, f.b2, f.b3, f.b4, f.b5, f.b6, f.b7, f.b8, f.b9, f.b10, f.b11]

/-- Initial value of `data[]`: the parts of the frame that never change. -/
def initFrame : Frame :=
  ⟨0xff, 0xff, 0x1a, 0x2d, 0x00, 0x00, 0x08, 0x00, 0x00, 0x80, 0x00, 0x00⟩

/-! ### Field setters (OS21Tx.h private methods) -/

/-- `data[5] &= 0x00; data[5] |= (rollingId & 0xff);` -/
def setRollingId (rollingId : Nat) (f : Frame) : Frame :=
  let f := { f with b5 := f.b5 &&& 0x00 }
  { f with b5 := f.b5 ||| (rollingId &&& 0xff) }

/-- `channelCode = (1 << (channel - 1))` truncated to `uint8_t`, then
`data[4] &= 0x0f; data[4] |= ((channelCode << 4) & 0xf0);`.
(The C shift operand is `channel - 1` as `int`; for every channel ≥ 1,
where the C expression is defined, it agrees with the `Nat` subtraction.) -/
def setChannel (channel : Nat) (f : Frame) : Frame :=
  let channelCode := (1 <<< (channel - 1)) % 256
  let f := { f with b4 := f.b4 &&& 0x0f }
  { f with b4 := f.b4 ||| ((channelCode <<< 4) &&& 0xf0) }

/-- The C cast `(int)` of a non-negative rational: truncation toward zero
(`Int.tdiv` of numerator by denominator).  All casts performed by the source
are on non-negative operands: `setTemperature` multiplies by -10 exactly when
`t < 0`, and `setHumidity` is used on non-negative humidities. -/
def ratTruncToNat (q : ℚ) : Nat := (Int.tdiv q.num (q.den : Int)).toNat

/-- The byte-packing tail of `setTemperature`, after the float-to-int
boundary: `t_sign` is the computed sign flag and `m` the truncated scaled
magnitude `(int)(t * (t_sign ? -10 : 10))`.  Digits are extracted exactly as
the source does (`/ 1 % 10`, `/ 10 % 10`, `/ 100 % 10`, `/ 1000 % 10`) and
packed by the source's read-modify-write pairs. -/
def setTemperatureCore (t_sign m : Nat) (f : Frame) : Frame :=
  let t_deci := (m / 1) % 10
  let t_ones := (m / 10) % 10
  let t_tens := (m / 100) % 10
  let t_huns := (m / 1000) % 10
  let f := { f with b6 := f.b6 &&& 0x0f }
  let f := { f with b6 := f.b6 ||| ((t_deci <<< 4) &&& 0xf0) }
  let f := { f with b7 := f.b7 &&& 0xf0 }
  let f := { f with b7 := f.b7 ||| ((t_ones <<< 0) &&& 0x0f) }
  let f := { f with b7 := f.b7 &&& 0x0f }
  let f := { f with b7 := f.b7 ||| ((t_tens <<< 4) &&& 0xf0) }
  let f := { f with b8 := f.b8 &&& 0xfc }
  let f := { f with b8 := f.b8 ||| ((t_huns <<< 0) &&& 0x03) }
  let f := { f with b8 := f.b8 &&& 0xf3 }
  { f with b8 := f.b8 ||| ((t_sign <<< 3) &&& 0x0c) }

/-- `setTemperature(float t)`: sign flag and truncated scaled magnitude,
then the byte-packing core. -/
def setTemperature (t : ℚ) (f : Frame) : Frame :=
  setTemperatureCore (if t < 0 then 1 else 0)
    (ratTruncToNat (t * (if t < 0 then -10 else 10))) f

/-- The byte-packing tail of `setHumidity`: `m` is `(int)(h * 10)` after the
`h += 0.5` rounding shift. -/
def setHumidityCore (m : Nat) (f : Frame) : Frame :=
  let h_ones := (m / 10) % 10
  let h_tens := (m / 100) % 10
  let f := { f with b8 := f.b8 &&& 0x0f }
  let f := { f with b8 := f.b8 ||| ((h_ones <<< 4) &&& 0xf0) }
  let f := { f with b9 := f.b9 &&& 0xf0 }
  { f with b9 := f.b9 ||| ((h_tens <<< 0) &&& 0x0f) }

/-- `setHumidity(float h)`: `h += 0.5` then digit decomposition of `h * 10`. -/
def setHumidity (h : ℚ) (f : Frame) : Frame :=
  setHumidityCore (ratTruncToNat ((h + 0.5) * 10)) f

/-- `data[6] &= 0xf8; data[6] |= (b ? 0x4 : 0x0);` -/
def setLowBattery (b : Bool) (f : Frame) : Frame :=
  let f := { f with b6 := f.b6 &&& 0xf8 }
  { f with b6 := f.b6 ||| (if b then 0x4 else 0x0) }

/-! ### Checksum engine (static functions over the decayed byte pointer) -/

/-- `(data[i / 2] >> ((i % 2) * 4)) & 0xf`: nibble `i` of the buffer. -/
def nib (g : Nat → Nat) (i : Nat) : Nat := (g (i / 2) >>> ((i % 2) * 4)) &&& 0xf

/-- One iteration of the `checksumSimple` loop.  The C guard
`if (!((mask >> i) & 0x1)) continue;` skips the body exactly when
`(mask >> i) & 0x1` is 0, i.e. runs it when that value is 1. -/
def checksumSimpleStep (g : Nat → Nat) (mask : Nat) (s i : Nat) : Nat :=
  if (mask >>> i) &&& 0x1 = 1 then
    let s1 := s + nib g i
    let s2 := s1 + ((s1 >>> 8) &&& 0x1)
    s2 &&& 0xff
  else s

/-- `checksumSimple(const uint8_t data[], uint64_t mask)`.  The `uint16_t`
accumulator cannot overflow: it is masked to 8 bits each iteration and a
nibble plus a carry bit add at most 16. -/
def checksumSimple (g : Nat → Nat) (mask : Nat) : Nat :=
  (List.range 64).foldl (checksumSimpleStep g mask) 0

/-- One shift of the CRC loop: `s <<= 1; s |= bit; if (s & 0x100) s ^= CRC_POLY;`
with `s` a `uint16_t` (hence the `% 65536` on the shift). -/
def crcStep16 (s bit : Nat) : Nat :=
  let s1 := ((s <<< 1) % 65536) ||| bit
  if s1 &&& 0x100 ≠ 0 then s1 ^^^ CRC_POLY else s1

/-- The inner `for (int j = 3; j >= 0; --j)` loop of `checksumCRC`. -/
def crcNibble (s nibble : Nat) : Nat :=
  [3, 2, 1, 0].foldl (fun s j => crcStep16 s ((nibble >>> j) &&& 0x1)) s

/-- One iteration of the flush loop: `s <<= 1; if (s & 0x100) s ^= CRC_POLY;` -/
def crcFlushStep (s : Nat) : Nat :=
  let s1 := (s <<< 1) % 65536
  if s1 &&& 0x100 ≠ 0 then s1 ^^^ CRC_POLY else s1

/-- `checksumCRC(const uint8_t data[], uint64_t mask, uint8_t iv)`; the final
`return` truncates the `uint16_t` accumulator to `uint8_t`. -/
def checksumCRC (g : Nat → Nat) (mask iv : Nat) : Nat :=
  let s := (List.range 64).foldl
    (fun s i => if (mask >>> i) &&& 0x1 = 1 then crcNibble s (nib g i) else s) iv
  let s := (List.range 8).foldl (fun s _ => crcFlushStep s) s
  s % 256

/-- `data[10] &= 0x00; data[10] |= (checksumSimple(data, SUM_MASK) & 0xff);` -/
def setChecksum (f : Frame) : Frame :=
  let f1 := { f with b10 := f.b10 &&& 0x00 }
  { f1 with b10 := f1.b10 ||| (checksumSimple (byteAt f1) SUM_MASK &&& 0xff) }

/-- `data[11] &= 0x00; data[11] |= (checksumCRC(data, CRC_MASK, CRC_IV) & 0xff);` -/
def setCRC (f : Frame) : Frame :=
  let f1 := { f with b11 := f.b11 &&& 0x00 }
  { f1 with b11 := f1.b11 ||| (checksumCRC (byteAt f1) CRC_MASK CRC_IV &&& 0xff) }

/-! ### Public interface -/

/-- `begin(channel, rollingId)` (minus the pin-direction call, which does not
touch the frame): `setRollingId` then `setChannel`. -/
def beginFrame (channel rollingId : Nat) : Frame :=
  setChannel channel (setRollingId rollingId initFrame)

/-- The frame-construction part of `transmit(temperature, humidity, lowBattery)`:
the five setters in source order, finishing with checksum then CRC. -/
def transmitFrame (temperature humidity : ℚ) (lowBattery : Bool) (f : Frame) : Frame :=
  setCRC (setChecksum (setLowBattery lowBattery
    (setHumidity humidity (setTemperature temperature f))))

/-- The 12-byte reference frame documented in the source's example-transmission
comment (checksum byte 0x4a, CRC byte 0x55). -/
def refFrame : List Nat :=
  [0xff, 0xff, 0x1a, 0x2d, 0x20, 0xbb, 0x7c, 0x22, 0x00, 0x83, 0x4a, 0x55]

/-! ### Bit-level transmitter: the pin-write trace of `sendData`

A pin write is a `Bool` (`true` = HIGH).  `writeSyncBit` only sleeps and
writes, so the observable behaviour of the send functions is the ordered
list of levels written. -/

/-- `sendZero()`: `writeSyncBit(LOW); writeSyncBit(HIGH);` -/
def sendZero : List Bool := [false, true]

/-- `sendOne()`: `writeSyncBit(HIGH); writeSyncBit(LOW);` -/
def sendOne : List Bool := [true, false]

/-- `sendBit(bool val)`: each bit is sent twice, inverted first. -/
def sendBit (val : Bool) : List Bool :=
  if val then sendZero ++ sendOne else sendOne ++ sendZero

/-- `(data[i / 8] >> (i % 8)) & 0x1`: bit `i` of the frame, LSB-first
within each byte. -/
def frameBit (f : Frame) (i : Nat) : Bool :=
  (byteAt f (i / 8) >>> (i % 8)) &&& 0x1 = 1

/-- The pin-write trace of `sendData()` (between `configureTimer` and
`restoreTimer`): all `DATA_LEN * 8` bits through `sendBit`, then the final
`writeSyncBit(LOW)`. -/
def sendDataWrites (f : Frame) : List Bool :=
  (((List.range (DATA_LEN * 8)).map (frameBit f)).map sendBit).flatten ++ [false]

/-- The half-symbol encoding the specification text claims for a single
logical bit: a 1 as (high, low), a 0 as (low, high). -/
def specHalfSymbols (b : Bool) : List Bool :=
  if b then [true, false] else [false, true]

/-! ### Decoding the packed digits

The repository contains no decoder; these accessors read the fixed digit
positions documented in the source's example-transmission comment (byte 6
high nibble: tenths; byte 7: ones low / tens high; byte 8: sign at bit 3,
humidity ones in the high nibble; byte 9 low nibble: humidity tens). -/

/-- Temperature sign flag: bit 3 of byte 8 (0 positive, 1 negative). -/
def decodeTempSign (f : Frame) : Nat := (f.b8 >>> 3) &&& 0x1

/-- Temperature tenths digit: high nibble of byte 6. -/
def decodeTempDeci (f : Frame) : Nat := (f.b6 >>> 4) &&& 0xf

/-- Temperature ones digit: low nibble of byte 7. -/
def decodeTempOnes (f : Frame) : Nat := f.b7 &&& 0xf

/-- Temperature tens digit: high nibble of byte 7. -/
def decodeTempTens (f : Frame) : Nat := (f.b7 >>> 4) &&& 0xf

/-- Humidity ones digit: high nibble of byte 8. -/
def decodeHumOnes (f : Frame) : Nat := (f.b8 >>> 4) &&& 0xf

/-- Humidity tens digit: low nibble of byte 9. -/
def decodeHumTens (f : Frame) : Nat := f.b9 &&& 0xf

/-! ### Reference definitions transcribed from the specification's wording

These are the spec-side definitions of the two digests (and of the byte
accesses), to be compared against the source-side loops above. -/

/-- Spec wording: positions "whose mask bit is set", in order, mapped to
their nibble values. -/
def specSelectedNibbles (g : Nat → Nat) (mask : Nat) : List Nat :=
  ((List.range 64).filter (fun i => decide ((mask >>> i) &&& 0x1 = 1))).map (nib g)

/-- Spec wording: "add the nibble value into a running sum, folding any
overflow bit (bit 8) back in and keeping the sum confined to 8 bits,
modulo 256". -/
def specSumStep (s n : Nat) : Nat := ((s + n) + (((s + n) >>> 8) &&& 0x1)) % 256

/-- Spec reference definition of the masked nibble sum. -/
def specMaskedNibbleSum (g : Nat → Nat) (mask : Nat) : Nat :=
  (specSelectedNibbles g mask).foldl specSumStep 0

/-- The 4 bits of a nibble, most-significant first. -/
def specNibbleBitsMSB (n : Nat) : List Nat :=
  [(n >>> 3) &&& 0x1, (n >>> 2) &&& 0x1, (n >>> 1) &&& 0x1, (n >>> 0) &&& 0x1]

/-- Spec reference CRC-8 shift: an 8-bit register; the polynomial is XOR-ed
in whenever the bit shifted out of the register is 1. -/
def specCRC8Step (r b : Nat) : Nat :=
  let out := (r >>> 7) &&& 0x1
  let r1 := ((r <<< 1) ||| b) % 256
  if out = 1 then r1 ^^^ CRC_POLY else r1

/-- Spec reference definition of the masked CRC-8: shift in the 4 bits of
every selected nibble MSB-first, then flush 8 zero bits. -/
def specMaskedCRC8 (g : Nat → Nat) (mask iv : Nat) : Nat :=
  (((specSelectedNibbles g mask).map specNibbleBitsMSB).flatten
      ++ List.replicate 8 0).foldl specCRC8Step iv

/-- The byte indices `i / 2` the two checksum loops read (`data[i / 2]`),
one for every mask-selected nibble position `i` in 0–63. -/
def accessedBytes (mask : Nat) : List Nat :=
  ((List.range 64).filter (fun i => decide ((mask >>> i) &&& 0x1 = 1))).map
    (fun i => i / 2)

/-! ### Timer save/restore (`configureTimer` / `restoreTimer`) -/

/-- ATtiny85 register bit numbers used by `configureTimer`. -/
def WGM01 : Nat := 1

def CS00 : Nat := 0

def CS01 : Nat := 1

def CS02 : Nat := 2

def OCIE0A : Nat := 4

/-- The four Timer0 configuration registers shared with the Arduino core. -/
structure TimerRegs where
  TCCR0A : Nat
  TCCR0B : Nat
  OCR0A : Nat
  TIMSK : Nat
deriving DecidableEq

/-- Timer-related machine state: the live registers plus the transmitter's
`old_*` member variables that snapshot them. -/
structure TimerState where
  regs : TimerRegs
  old_TCCR0A : Nat
  old_TCCR0B : Nat
  old_OCR0A : Nat
  old_TIMSK : Nat
deriving DecidableEq

/-- `configureTimer()`: save the four registers into the `old_*` members,
then re-purpose the timer (CTC mode, external clock on T0, compare at 0xf,
compare-match interrupt). -/
def configureTimer (st : TimerState) : TimerState :=
  { st with
    old_TCCR0A := st.regs.TCCR0A
    old_TCCR0B := st.regs.TCCR0B
    old_OCR0A := st.regs.OCR0A
    old_TIMSK := st.regs.TIMSK
    regs :=
      { TCCR0A := 1 <<< WGM01
        TCCR0B := (1 <<< CS02) ||| (1 <<< CS01) ||| (1 <<< CS00)
        OCR0A := 0xf
        TIMSK := 1 <<< OCIE0A } }

/-- `restoreTimer()`: write the snapshot back into the registers. -/
def restoreTimer (st : TimerState) : TimerState :=
  { st with
    regs :=
      { TCCR0A := st.old_TCCR0A
        TCCR0B := st.old_TCCR0B
        OCR0A := st.old_OCR0A
        TIMSK := st.old_TIMSK } }

/-- The effect of one `sendData()` call on the timer state: the bit loop
between the two calls never touches these registers. -/
def sendDataTimer (st : TimerState) : TimerState :=
  restoreTimer (configureTimer st)

/-- The effect of one `transmit` call on the timer state: `sendData` twice. -/
def transmitTimer (st : TimerState) : TimerState :=
  sendDataTimer (sendDataTimer st)

/-! ### Duty-cycle scheduler (`sensor.ino` `loop()`) and the implausibility
filter (`DHTWrapper::irrationalReading`) -/

/-- `DHTWrapper::irrationalReading(float t, float h)`. -/
def irrationalReading (t h : ℚ) : Bool :=
  decide ((t = 0 ∧ h = 0) ∨ (t = 150 ∧ h = 100) ∨ (t = 50 ∧ h = 0))

/-- Observable actions of one `loop()` iteration, in program order. -/
inductive Event where
  | xoPowerHigh : Event
  | dhtPowerOn : Event
  | sleepWarmup : Event
  | readSample : Event
  | dhtPowerOff : Event
  | transmit (t h : ℚ) (lowBattery : Bool) : Event
  | xoPowerLow : Event
  | sleepLong : Event
deriving DecidableEq

/-- One iteration of `loop()`, given the sampled reading `(t, h)` and the
measured supply voltage in millivolts: power up, warm-up sleep, read; if the
reading is irrational, `return` (retry from the top); otherwise power the
sensor down, transmit with the low-battery comparison against
`LOW_BATTERY` = 2000 mV, power the oscillator down and sleep 40 s. -/
def loopBody (t h : ℚ) (vcc : ℤ) : List Event :=
  [Event.xoPowerHigh, Event.dhtPowerOn, Event.sleepWarmup, Event.readSample] ++
    (if irrationalReading t h then []
     else [Event.dhtPowerOff, Event.transmit t h (decide (vcc < 2000)),
           Event.xoPowerLow, Event.sleepLong])

/-! ### The float-to-int boundary, evaluated on exact decimal inputs -/

theorem ratTruncToNat_intCast (n : ℤ) : ratTruncToNat (n : ℚ) = n.toNat := by
  simp [ratTruncToNat, Rat.num_intCast, Rat.den_intCast]

/-- On a temperature that is an exact multiple of 0.1, `setTemperature`
computes sign flag `1` iff the numerator is negative and magnitude `|k|`. -/
theorem setTemperature_ofInt (k : ℤ) (f : Frame) :
    setTemperature ((k : ℚ) / 10) f
      = setTemperatureCore (if k < 0 then 1 else 0) k.natAbs f := by
  have hsign : ((k : ℚ) / 10 < 0) ↔ (k < 0) := by
    rw [div_lt_iff₀ (by norm_num : (0:ℚ) < 10), zero_mul]
    exact_mod_cast Int.cast_lt_zero
  unfold setTemperature
  by_cases hk : k < 0
  · have h1 : (k : ℚ) / 10 * -10 = ((-k : ℤ) : ℚ) := by push_cast; ring
    rw [if_pos (hsign.mpr hk), if_pos (hsign.mpr hk), if_pos hk, h1,
      ratTruncToNat_intCast]
    congr 1
    omega
  · have h1 : (k : ℚ) / 10 * 10 = ((k : ℤ) : ℚ) := by ring
    rw [if_neg (fun h => hk (hsign.mp h)), if_neg (fun h => hk (hsign.mp h)),
      if_neg hk, h1, ratTruncToNat_intCast]
    congr 1
    omega

/-- On a whole-number humidity, the `+ 0.5` shift and scaling by 10 produce
the integer `10 * h + 5`. -/
theorem setHumidity_ofNat (h : ℕ) (f : Frame) :
    setHumidity (h : ℚ) f = setHumidityCore (10 * h + 5) f := by
  have h1 : ((h : ℚ) + 0.5) * 10 = (((10 * h + 5 : ℕ) : ℤ) : ℚ) := by
    push_cast; ring
  unfold setHumidity
  rw [h1, ratTruncToNat_intCast, Int.toNat_natCast]

/-! ### Small bit-packing facts used below -/

theorem lowNib_or_0x10 :
    ∀ a, a ≤ 15 → ((a ||| 0x10) &&& 0xf0 = 0x10) ∧ ((a ||| 0x10) &&& 0x0f = a) := by
  decide

theorem lowNib_or_0x20 :
    ∀ a, a ≤ 15 → ((a ||| 0x20) &&& 0xf0 = 0x20) ∧ ((a ||| 0x20) &&& 0x0f = a) := by
  decide

theorem lowNib_or_0x40 :
    ∀ a, a ≤ 15 → ((a ||| 0x40) &&& 0xf0 = 0x40) ∧ ((a ||| 0x40) &&& 0x0f = a) := by
  decide

/-! ### Claim C1 — the documented end-to-end reference frame -/

/-- C1 (counterexample): with channel input 1 (together with rollingId 0xbb,
temperature 22.7, humidity 30.0, low battery), the finalized frame does NOT
equal the documented reference frame: `setChannel` encodes channel 1 as
nibble 0x1, so byte 4 is 0x10, the checksum is 0x49 and the CRC 0xf3. -/
theorem frame_channel1_ne_refFrame :
    toList (transmitFrame 22.7 30 true (beginFrame 1 0xbb)) ≠ refFrame := by
  have e1 : (22.7 : ℚ) = ((227 : ℤ) : ℚ) / 10 := by norm_num
  have e2 : (30 : ℚ) = ((30 : ℕ) : ℚ) := by norm_num
  rw [transmitFrame, e1, e2, setTemperature_ofInt, setHumidity_ofNat]
  decide

/-- C1 (amended): with channel input 2 — whose one-hot code 0x2 is the
channel nibble the documented example frame actually carries — rollingId
0xbb, temperature 22.7 °C, humidity 30.0 %, and the low-battery flag set,
`begin` followed by the frame-finalizing part of `transmit` produces exactly
the documented 12-byte reference frame, with checksum byte 0x4a and CRC
byte 0x55. -/
theorem frame_channel2_eq_refFrame :
    toList (transmitFrame 22.7 30 true (beginFrame 2 0xbb)) = refFrame := by
  have e1 : (22.7 : ℚ) = ((227 : ℤ) : ℚ) / 10 := by norm_num
  have e2 : (30 : ℚ) = ((30 : ℕ) : ℚ) := by norm_num
  rw [transmitFrame, e1, e2, setTemperature_ofInt, setHumidity_ofNat]
  decide

/-! ### Claim C2 — logical-bit encoding of the transmitter -/

/-- C2 (counterexample): the emission of the bit sequence [1,0,1,1] is not
the claimed half-symbol sequence (hi,lo),(lo,hi),(hi,lo),(hi,lo): `sendBit`
sends every bit twice (inverted first), so the trace has 16 half-symbols,
not 8. -/
theorem sendBit_trace_ne_specHalfSymbols :
    (([true, false, true, true].map sendBit).flatten)
      ≠ ([true, false, true, true].map specHalfSymbols).flatten := by
  decide

/-- C2 (amended): for every logical bit sequence, the transmitter emits each
logical bit as four physical half-bit symbols — the (low, high)/(high, low)
pair of the INVERTED bit first, then the pair of the bit itself, the bit's
own pair being (high, low) for a 1 and (low, high) for a 0 — so every
logical bit contributes exactly two high and two low pulses; in particular
[1,0,1,1] is emitted as (lo,hi,hi,lo),(hi,lo,lo,hi),(lo,hi,hi,lo),(lo,hi,hi,lo). -/
theorem sendBit_doubles_specHalfSymbols :
    (∀ bs : List Bool,
      (bs.map sendBit).flatten
        = (bs.map (fun b => specHalfSymbols (!b) ++ specHalfSymbols b)).flatten)
    ∧ (([true, false, true, true].map sendBit).flatten
        = [false, true, true, false, true, false, false, true,
           false, true, true, false, false, true, true, false]) := by
  constructor
  · intro bs
    induction bs with
    | nil => rfl
    | cons b bs ih =>
      cases b <;> simp [sendBit, sendZero, sendOne, specHalfSymbols, ih]
  · decide

/-! ### Claim C9 — physical emission of the 96 frame bits -/

/-- C9: each of the 96 frame bits is emitted as four half-symbol pin writes
(the Manchester pair of the inverted bit, then the pair of the bit itself):
a 1 is written as (low, high, high, low) and a 0 as (high, low, low, high),
each bit producing exactly two HIGH and two LOW writes; after the last bit
one additional LOW write is appended, so the final write of `sendData` is
LOW. -/
theorem sendData_write_trace (f : Frame) :
    sendBit true = [false, true, true, false]
    ∧ sendBit false = [true, false, false, true]
    ∧ (∀ b, (sendBit b).count true = 2 ∧ (sendBit b).count false = 2)
    ∧ sendDataWrites f
        = ((List.range 96).map (fun i => sendBit (frameBit f i))).flatten ++ [false]
    ∧ (sendDataWrites f).getLast? = some false := by
  refine ⟨rfl, rfl, ?_, ?_, ?_⟩
  · intro b
    cases b <;> exact ⟨rfl, rfl⟩
  · rw [sendDataWrites, List.map_map]
    rfl
  · exact List.getLast?_concat _

/-! ### Claim C6 — timer configuration is saved and restored -/

/-- C6: across every `sendData` call — and hence across the two frame
emissions of every `transmit` call — the four hardware-timer registers
TCCR0A, TCCR0B, OCR0A and TIMSK are returned to exactly the values they
held on entry: `configureTimer` snapshots them before re-purposing the
timer and `restoreTimer` writes the snapshot back. -/
theorem timer_config_restored (st : TimerState) :
    (sendDataTimer st).regs = st.regs ∧ (transmitTimer st).regs = st.regs := by
  constructor <;> rfl

/-! ### Claim C7 — irrational readings are never transmitted -/

/-- C7: if `irrationalReading(t, h)` holds, the `loop()` iteration ends
without any `transmit` event (the cycle is discarded and retried); if it
does not hold, the iteration transmits exactly the sampled values together
with the low-battery comparison. -/
theorem irrational_reading_not_transmitted (t h : ℚ) (vcc : ℤ) :
    (irrationalReading t h = true →
      ∀ a b low, Event.transmit a b low ∉ loopBody t h vcc)
    ∧ (irrationalReading t h = false →
      Event.transmit t h (decide (vcc < 2000)) ∈ loopBody t h vcc) := by
  constructor
  · intro hir a b low
    simp [loopBody, hir]
  · intro hir
    simp [loopBody, hir]

/-- Witness for C7 at concrete inputs: the reading (0, 0) is irrational and
produces no transmit event; the reading (22.7, 30) with vcc = 3000 mV is
transmitted with the low-battery flag false. -/
theorem irrational_reading_not_transmitted_witness :
    (Event.transmit 5 5 false ∉ loopBody 0 0 3000)
    ∧ Event.transmit (22.7 : ℚ) 30 (decide ((3000 : ℤ) < 2000))
        ∈ loopBody (22.7 : ℚ) 30 3000 := by
  constructor
  · exact (irrational_reading_not_transmitted 0 0 3000).1 (by norm_num [irrationalReading]) 5 5 false
  · exact (irrational_reading_not_transmitted (22.7 : ℚ) 30 3000).2
      (by norm_num [irrationalReading])

/-! ### Claim C8 — one-hot channel encoding -/

/-- C8: for every valid channel input in {1, 2, 3}, `setChannel` writes the
one-hot channel code into the high nibble of frame byte 4 — bit pattern
0x10 for channel 1, 0x20 for channel 2, 0x40 for channel 3 — and leaves the
low nibble of byte 4 unchanged. -/
theorem setChannel_onehot (f : Frame) (c : Nat) (h1 : 1 ≤ c) (h3 : c ≤ 3) :
    (setChannel c f).b4 &&& 0xf0
        = (if c = 1 then 0x10 else if c = 2 then 0x20 else 0x40)
    ∧ (setChannel c f).b4 &&& 0x0f = f.b4 &&& 0x0f := by
  have ha : f.b4 &&& 0x0f ≤ 15 := Nat.and_le_right
  interval_cases c
  · exact ⟨(lowNib_or_0x10 _ ha).1, (lowNib_or_0x10 _ ha).2⟩
  · exact ⟨(lowNib_or_0x20 _ ha).1, (lowNib_or_0x20 _ ha).2⟩
  · exact ⟨(lowNib_or_0x40 _ ha).1, (lowNib_or_0x40 _ ha).2⟩

/-- Witness for C8 at channel 2 on the initial frame. -/
theorem setChannel_onehot_witness :
    (1 ≤ 2 ∧ 2 ≤ 3)
    ∧ ((setChannel 2 initFrame).b4 &&& 0xf0
          = (if 2 = 1 then 0x10 else if 2 = 2 then 0x20 else 0x40)
        ∧ (setChannel 2 initFrame).b4 &&& 0x0f = initFrame.b4 &&& 0x0f) :=
  ⟨⟨by decide, by decide⟩, setChannel_onehot initFrame 2 (by decide) (by decide)⟩

/-! ### Generic fold lemmas and bit-arithmetic bridges -/

theorem foldl_filter_eq {α β : Type _} (p : α → Bool) (f : β → α → β) :
    ∀ (l : List α) (s : β),
      List.foldl (fun s a => if p a then f s a else s) s l
        = List.foldl f s (l.filter p) := by
  intro l
  induction l with
  | nil => intro s; rfl
  | cons a l ih =>
    intro s
    cases hpa : p a <;> simp [List.filter_cons, hpa, ih]

theorem and255_eq_mod (x : Nat) : x &&& 0xff = x % 256 := by
  have h := Nat.and_pow_two_sub_one_eq_mod x 8
  norm_num at h
  exact h

theorem two_mul_or_bit (x b : Nat) (hb : b ≤ 1) : 2 * x ||| b = 2 * x + b := by
  interval_cases b
  · simp
  · have h := Nat.lor_bit false x true 0
    simp [Nat.bit_false, Nat.bit_true] at h
    simpa using h

theorem xor7_mod256 (x : Nat) : (x ^^^ 7) % 256 = (x % 256) ^^^ 7 := by
  have h256 : (256 : ℕ) = 2 ^ 8 := by norm_num
  rw [h256]
  apply Nat.eq_of_testBit_eq
  intro i
  rw [Nat.testBit_mod_two_pow, Nat.testBit_xor, Nat.testBit_xor,
    Nat.testBit_mod_two_pow]
  rcases lt_or_ge i 8 with hi | hi
  · rw [decide_eq_true hi, Bool.true_and, Bool.true_and]
  · have h7 : Nat.testBit 7 i = false :=
      Nat.testBit_eq_false_of_lt
        (lt_of_lt_of_le (by norm_num) (Nat.pow_le_pow_right (by norm_num) hi))
    rw [h7, Bool.xor_false, Bool.xor_false]

theorem and_0x100_ne_iff (x : Nat) : (x &&& 0x100 ≠ 0) ↔ x / 256 % 2 = 1 := by
  have h : (0x100 : ℕ) = 2 ^ 8 := by norm_num
  cases hb : x.testBit 8
  · rw [h, Nat.and_two_pow, hb]
    rw [Nat.testBit_to_div_mod] at hb
    norm_num at hb ⊢
    omega
  · rw [h, Nat.and_two_pow, hb]
    rw [Nat.testBit_to_div_mod] at hb
    norm_num at hb ⊢
    omega

/-! ### Claim C3 — the masked nibble sum matches its reference definition -/

/-- C3: for every frame buffer and every mask, `checksumSimple` — the loop
over nibble positions 0–63 that indexes nibble `i` as the 4 bits at offset
`4 * (i % 2)` of byte `i / 2`, adds every mask-selected nibble into a
running sum, folds the overflow bit (bit 8) back in and keeps the sum
within 8 bits — returns exactly the reference masked-nibble-sum digest. -/
theorem checksumSimple_eq_spec (g : Nat → Nat) (mask : Nat) :
    checksumSimple g mask = specMaskedNibbleSum g mask := by
  have hstep : checksumSimpleStep g mask
      = fun s i => if (fun i => decide ((mask >>> i) &&& 0x1 = 1)) i
          then specSumStep s (nib g i) else s := by
    funext s i
    simp only [checksumSimpleStep, specSumStep, decide_eq_true_eq]
    split
    · exact and255_eq_mod _
    · rfl
  rw [checksumSimple, hstep, foldl_filter_eq, specMaskedNibbleSum,
    specSelectedNibbles, List.foldl_map]

/-! ### Claim C4 — the masked CRC-8 matches its reference definition -/

theorem crcStep16_mod (s b : Nat) (hb : b ≤ 1) :
    crcStep16 s b % 256 = specCRC8Step (s % 256) b := by
  have e1 : ((s <<< 1) % 65536) ||| b = 2 * (s % 32768) + b := by
    have e : (s <<< 1) % 65536 = 2 * (s % 32768) := by
      rw [Nat.shiftLeft_eq, pow_one]
      omega
    rw [e, two_mul_or_bit _ _ hb]
  have e2 : ((s % 256) <<< 1) ||| b = 2 * (s % 256) + b := by
    rw [Nat.shiftLeft_eq, pow_one, Nat.mul_comm, two_mul_or_bit _ _ hb]
  simp only [crcStep16, specCRC8Step, CRC_POLY]
  rw [e1, e2]
  have hcond : (2 * (s % 32768) + b) &&& 0x100 ≠ 0
      ↔ ((s % 256) >>> 7) &&& 1 = 1 := by
    rw [and_0x100_ne_iff, Nat.shiftRight_eq_div_pow, Nat.and_one_is_mod]
    norm_num
    omega
  by_cases hc : (2 * (s % 32768) + b) &&& 0x100 ≠ 0
  · rw [if_pos hc, if_pos (hcond.mp hc), xor7_mod256]
    congr 1
    omega
  · rw [if_neg hc, if_neg (fun h => hc (hcond.mpr h))]
    omega

theorem foldl_crcStep16_mod :
    ∀ (bs : List Nat), (∀ b ∈ bs, b ≤ 1) → ∀ s,
      (bs.foldl crcStep16 s) % 256 = bs.foldl specCRC8Step (s % 256) := by
  intro bs
  induction bs with
  | nil => intro _ s; rfl
  | cons b bs ih =>
    intro hb s
    rw [List.foldl_cons, List.foldl_cons,
      ih (fun x hx => hb x (List.mem_cons_of_mem _ hx)) _,
      crcStep16_mod _ _ (hb b (List.mem_cons_self _ _))]

/-- C4: for every frame buffer, mask and 8-bit initial value, `checksumCRC`
— which keeps a 16-bit accumulator, shifts each mask-selected nibble's bits
MSB-first, XORs polynomial 7 whenever bit 8 becomes set, flushes 8 zero
bits, and truncates to a byte — returns exactly the spec's reference CRC-8:
an 8-bit register seeded with the initial value, XOR-ing the polynomial
whenever the bit shifted out of the register is 1. -/
theorem checksumCRC_eq_spec (g : Nat → Nat) (mask iv : Nat) (hiv : iv < 256) :
    checksumCRC g mask iv = specMaskedCRC8 g mask iv := by
  have h1 : (List.range 64).foldl
      (fun s i => if (mask >>> i) &&& 0x1 = 1 then crcNibble s (nib g i) else s) iv
      = (specSelectedNibbles g mask).foldl crcNibble iv := by
    have hstep : (fun (s i : Nat) =>
          if (mask >>> i) &&& 0x1 = 1 then crcNibble s (nib g i) else s)
        = fun s i => if (fun i => decide ((mask >>> i) &&& 0x1 = 1)) i
            then crcNibble s (nib g i) else s := by
      funext s i
      simp only [decide_eq_true_eq]
    rw [hstep, foldl_filter_eq, specSelectedNibbles, List.foldl_map]
  have h3 : (specSelectedNibbles g mask).foldl crcNibble iv
      = ((specSelectedNibbles g mask).map specNibbleBitsMSB).flatten.foldl
          crcStep16 iv := by
    rw [List.foldl_flatten, List.foldl_map]
    rfl
  have hflush : ∀ s, crcFlushStep s = crcStep16 s 0 := by
    intro s
    simp [crcFlushStep, crcStep16]
  have h4 : ∀ A : Nat, (List.range 8).foldl (fun s _ => crcFlushStep s) A
      = (List.replicate 8 0).foldl crcStep16 A := by
    intro A
    simp only [hflush]
    rfl
  have hbits : ∀ x ∈ ((specSelectedNibbles g mask).map specNibbleBitsMSB).flatten
      ++ List.replicate 8 0, x ≤ 1 := by
    intro x hx
    rcases List.mem_append.mp hx with hx | hx
    · rcases List.mem_flatten.mp hx with ⟨l, hl, hxl⟩
      rcases List.mem_map.mp hl with ⟨n, _, rfl⟩
      simp only [specNibbleBitsMSB, List.mem_cons, List.not_mem_nil, or_false] at hxl
      rcases hxl with rfl | rfl | rfl | rfl <;> exact Nat.and_le_right
    · rw [List.eq_of_mem_replicate hx]
      exact Nat.zero_le 1
  simp only [checksumCRC]
  rw [h1, h3, h4, ← List.foldl_append, foldl_crcStep16_mod _ hbits iv,
    Nat.mod_eq_of_lt hiv]
  rfl

/-- Witness for C4: the theorem applied to the initial frame, the CRC mask
and the protocol initial value 0x42. -/
theorem checksumCRC_eq_spec_witness :
    CRC_IV < 256
    ∧ checksumCRC (byteAt initFrame) CRC_MASK CRC_IV
        = specMaskedCRC8 (byteAt initFrame) CRC_MASK CRC_IV :=
  ⟨by decide, checksumCRC_eq_spec (byteAt initFrame) CRC_MASK CRC_IV (by decide)⟩

/-! ### Claim C5 — digit round-trip for temperature and humidity -/

theorem dec_hi :
    ∀ a, a ≤ 15 → ∀ v, v ≤ 9 →
      ((a ||| ((v <<< 4) &&& 0xf0)) >>> 4) &&& 0xf = v := by
  decide

theorem dec_lo :
    ∀ a, a ≤ 15 → ∀ v, v ≤ 9 →
      (a ||| ((v <<< 4) &&& 0xf0)) &&& 0xf = a := by
  decide

theorem dec_sign :
    ∀ e, e ≤ 3 → ∀ s, s ≤ 1 → ∀ v, v ≤ 9 →
      (((e ||| ((s <<< 3) &&& 0x0c)) ||| ((v <<< 4) &&& 0xf0)) >>> 3) &&& 0x1
        = s := by
  decide

theorem dec_b8low :
    ∀ a, a ≤ 252 → a &&& 0x03 = 0 → ∀ u, u ≤ 9 → ∀ s, s ≤ 1 →
      (((a ||| ((u <<< 0) &&& 0x03)) &&& 0xf3) ||| ((s <<< 3) &&& 0x0c)) &&& 0xf
        = ((u &&& 0x03) ||| ((s <<< 3) &&& 0x0c)) := by
  decide

theorem dec_lownib :
    ∀ a, a ≤ 240 → a &&& 0xf = 0 → ∀ u, u ≤ 9 →
      (a ||| ((u <<< 0) &&& 0x0f)) &&& 0xf = u := by
  decide

theorem and_hi_lo_zero (x : Nat) : (x &&& 0xf0) &&& 0xf = 0 := by
  rw [Nat.and_assoc, show (0xf0 &&& 0xf : Nat) = 0 from rfl, Nat.and_zero]

theorem and_0xfc_0x03_zero (x : Nat) : (x &&& 0xfc) &&& 0x03 = 0 := by
  rw [Nat.and_assoc, show (0xfc &&& 0x03 : Nat) = 0 from rfl, Nat.and_zero]

/-- Decoding after the byte-packing cores recovers the sign flag and every
digit the cores extracted, for every starting frame. -/
theorem core_decode (f : Frame) (s m n : Nat) (hs : s ≤ 1) :
    decodeTempSign (setHumidityCore n (setTemperatureCore s m f)) = s
    ∧ decodeTempDeci (setHumidityCore n (setTemperatureCore s m f)) = m / 1 % 10
    ∧ decodeTempOnes (setHumidityCore n (setTemperatureCore s m f)) = m / 10 % 10
    ∧ decodeTempTens (setHumidityCore n (setTemperatureCore s m f)) = m / 100 % 10
    ∧ decodeHumOnes (setHumidityCore n (setTemperatureCore s m f)) = n / 10 % 10
    ∧ decodeHumTens (setHumidityCore n (setTemperatureCore s m f)) = n / 100 % 10 := by
  have hmod : ∀ x : Nat, x % 10 ≤ 9 := fun x => by omega
  have hB : ((f.b7 &&& 0xf0) ||| (((m / 10 % 10) <<< 0) &&& 0x0f)) &&& 0xf
      = m / 10 % 10 :=
    dec_lownib _ Nat.and_le_right (and_hi_lo_zero _) _ (hmod _)
  have hb8low : ((((f.b8 &&& 0xfc) ||| (((m / 1000 % 10) <<< 0) &&& 0x03)) &&& 0xf3)
        ||| ((s <<< 3) &&& 0x0c)) &&& 0xf
      = ((m / 1000 % 10 &&& 0x03) ||| ((s <<< 3) &&& 0x0c)) :=
    dec_b8low _ Nat.and_le_right (and_0xfc_0x03_zero _) _ (hmod _) _ hs
  refine ⟨?_, ?_, ?_, ?_, ?_, ?_⟩ <;>
    simp only [setTemperatureCore, setHumidityCore, decodeTempSign, decodeTempDeci,
      decodeTempOnes, decodeTempTens, decodeHumOnes, decodeHumTens]
  · rw [hb8low]
    exact dec_sign _ Nat.and_le_right _ hs _ (hmod _)
  · exact dec_hi _ Nat.and_le_right _ (hmod _)
  · rw [hB]
    exact dec_lo _ (le_trans (hmod _) (by norm_num)) _ (hmod _)
  · rw [hB]
    exact dec_hi _ (le_trans (hmod _) (by norm_num)) _ (hmod _)
  · exact dec_hi _ Nat.and_le_right _ (hmod _)
  · exact dec_lownib _ Nat.and_le_right (and_hi_lo_zero _) _ (hmod _)

/-- C5: for every temperature t = k/10 with k in [-199, 999] (i.e. t in
[-19.9, 99.9] in steps of 0.1) and every whole-number humidity h in [0, 99],
writing t via `setTemperature` and h via `setHumidity` and then decoding the
packed frame digits recovers exactly the decimal digits of t (sign, tenths,
ones, tens) and of h (ones, tens), on every starting frame — including the
boundary cases 0.0, negative values crossing the sign bit, and 99.9. -/
theorem temperature_humidity_roundtrip (f : Frame) (k : ℤ)
    (_hk1 : -199 ≤ k) (_hk2 : k ≤ 999) (h : ℕ) (_hh : h ≤ 99) :
    decodeTempSign (setHumidity (h : ℚ) (setTemperature ((k : ℚ) / 10) f))
        = (if k < 0 then 1 else 0)
    ∧ decodeTempDeci (setHumidity (h : ℚ) (setTemperature ((k : ℚ) / 10) f))
        = k.natAbs % 10
    ∧ decodeTempOnes (setHumidity (h : ℚ) (setTemperature ((k : ℚ) / 10) f))
        = k.natAbs / 10 % 10
    ∧ decodeTempTens (setHumidity (h : ℚ) (setTemperature ((k : ℚ) / 10) f))
        = k.natAbs / 100 % 10
    ∧ decodeHumOnes (setHumidity (h : ℚ) (setTemperature ((k : ℚ) / 10) f))
        = h % 10
    ∧ decodeHumTens (setHumidity (h : ℚ) (setTemperature ((k : ℚ) / 10) f))
        = h / 10 % 10 := by
  rw [setTemperature_ofInt k f, setHumidity_ofNat h _]
  have core := core_decode f (if k < 0 then 1 else 0) k.natAbs (10 * h + 5)
    (by split <;> norm_num)
  refine ⟨core.1, ?_, core.2.2.1, core.2.2.2.1, ?_, ?_⟩
  · rw [core.2.1, Nat.div_one]
  · rw [core.2.2.2.2.1]
    omega
  · rw [core.2.2.2.2.2]
    omega

/-- Witness for C5 at t = -0.5 (k = -5), h = 30, on the initial frame. -/
theorem temperature_humidity_roundtrip_witness :
    ((-199 : ℤ) ≤ -5 ∧ (-5 : ℤ) ≤ 999 ∧ (30 : ℕ) ≤ 99)
    ∧ (decodeTempSign (setHumidity ((30 : ℕ) : ℚ)
          (setTemperature (((-5 : ℤ) : ℚ) / 10) initFrame))
        = (if (-5 : ℤ) < 0 then 1 else 0)
      ∧ decodeTempDeci (setHumidity ((30 : ℕ) : ℚ)
          (setTemperature (((-5 : ℤ) : ℚ) / 10) initFrame))
        = (-5 : ℤ).natAbs % 10
      ∧ decodeTempOnes (setHumidity ((30 : ℕ) : ℚ)
          (setTemperature (((-5 : ℤ) : ℚ) / 10) initFrame))
        = (-5 : ℤ).natAbs / 10 % 10
      ∧ decodeTempTens (setHumidity ((30 : ℕ) : ℚ)
          (setTemperature (((-5 : ℤ) : ℚ) / 10) initFrame))
        = (-5 : ℤ).natAbs / 100 % 10
      ∧ decodeHumOnes (setHumidity ((30 : ℕ) : ℚ)
          (setTemperature (((-5 : ℤ) : ℚ) / 10) initFrame))
        = 30 % 10
      ∧ decodeHumTens (setHumidity ((30 : ℕ) : ℚ)
          (setTemperature (((-5 : ℤ) : ℚ) / 10) initFrame))
        = 30 / 10 % 10) :=
  ⟨⟨by norm_num, by norm_num, by norm_num⟩,
    temperature_humidity_roundtrip initFrame (-5) (by norm_num) (by norm_num)
      30 (by norm_num)⟩

/-! ### Claim C10 — in-bounds buffer accesses of the checksum loops -/

theorem maskBit_lt {mask i n : Nat} (hm : mask < 2 ^ n)
    (h : (mask >>> i) &&& 0x1 = 1) : i < n := by
  by_contra hge
  rw [Nat.shiftRight_eq_div_pow,
    Nat.div_eq_of_lt
      (lt_of_lt_of_le hm (Nat.pow_le_pow_right (by norm_num) (by omega)))] at h
  exact absurd h (by decide)

/-- C10: for every mask whose set bits all lie below position 24, every byte
index `i / 2` the checksum loops access is within the 12-byte frame — in
particular SUM_MASK and CRC_MASK are such masks and select only nibble
positions 5 through 19 — and on such masks `checksumSimple` and
`checksumCRC` depend only on the first 12 bytes of the buffer; the
guarantee fails for arbitrary 64-bit masks, which access byte index 31. -/
theorem checksum_accesses_in_bounds :
    (∀ mask : Nat, mask < 2 ^ 24 → ∀ j ∈ accessedBytes mask, j < 12)
    ∧ (SUM_MASK < 2 ^ 24 ∧ CRC_MASK < 2 ^ 24)
    ∧ (∀ i : Nat,
        ((SUM_MASK >>> i) &&& 0x1 = 1 ∨ (CRC_MASK >>> i) &&& 0x1 = 1) →
        5 ≤ i ∧ i ≤ 19)
    ∧ (∀ mask : Nat, mask < 2 ^ 24 → ∀ iv : Nat, ∀ g1 g2 : Nat → Nat,
        (∀ j, j < 12 → g1 j = g2 j) →
        checksumSimple g1 mask = checksumSimple g2 mask
          ∧ checksumCRC g1 mask iv = checksumCRC g2 mask iv)
    ∧ (31 ∈ accessedBytes (2 ^ 63) ∧ ¬ 31 < 12) := by
  refine ⟨?_, ⟨by decide, by decide⟩, ?_, ?_, ⟨by decide, by decide⟩⟩
  · intro mask hm j hj
    rcases List.mem_map.mp hj with ⟨i, hi, rfl⟩
    rcases List.mem_filter.mp hi with ⟨-, hsel⟩
    rw [decide_eq_true_eq] at hsel
    have := maskBit_lt hm hsel
    omega
  · intro i hi
    rcases lt_or_ge i 20 with h20 | h20
    · revert hi
      revert h20
      revert i
      decide
    · exfalso
      rcases hi with hi | hi
      · exact absurd (maskBit_lt (show SUM_MASK < 2 ^ 20 by decide) hi) (by omega)
      · exact absurd (maskBit_lt (show CRC_MASK < 2 ^ 20 by decide) hi) (by omega)
  · intro mask hm iv g1 g2 hagree
    have hnib : ∀ i, (mask >>> i) &&& 0x1 = 1 → nib g1 i = nib g2 i := by
      intro i hsel
      have hlt : i < 24 := maskBit_lt hm hsel
      rw [nib, nib, hagree (i / 2) (by omega)]
    constructor
    · rw [checksumSimple, checksumSimple]
      apply List.foldl_ext
      intro s i _
      rw [checksumSimpleStep, checksumSimpleStep]
      by_cases hsel : (mask >>> i) &&& 0x1 = 1
      · rw [if_pos hsel, if_pos hsel, hnib i hsel]
      · rw [if_neg hsel, if_neg hsel]
    · simp only [checksumCRC]
      have hfold : (List.range 64).foldl
          (fun s i => if (mask >>> i) &&& 0x1 = 1 then crcNibble s (nib g1 i) else s) iv
          = (List.range 64).foldl
            (fun s i => if (mask >>> i) &&& 0x1 = 1 then crcNibble s (nib g2 i) else s) iv := by
        apply List.foldl_ext
        intro s i _
        by_cases hsel : (mask >>> i) &&& 0x1 = 1
        · rw [if_pos hsel, if_pos hsel, hnib i hsel]
        · rw [if_neg hsel, if_neg hsel]
      rw [hfold]

/-- Witness for C10: SUM_MASK is below 2^24 and the access to byte 9 it
makes is in bounds; nibble 5 lies in the selected window; and the two
digests agree between a frame accessor and its 12-byte truncation. -/
theorem checksum_accesses_in_bounds_witness :
    (9 < 12)
    ∧ (5 ≤ 5 ∧ 5 ≤ 19)
    ∧ (checksumSimple (byteAt initFrame) SUM_MASK
          = checksumSimple (fun j => if j < 12 then byteAt initFrame j else 99) SUM_MASK
      ∧ checksumCRC (byteAt initFrame) SUM_MASK CRC_IV
          = checksumCRC (fun j => if j < 12 then byteAt initFrame j else 99) SUM_MASK CRC_IV) :=
  ⟨checksum_accesses_in_bounds.1 SUM_MASK (by decide) 9 (by decide),
    checksum_accesses_in_bounds.2.2.1 5 (Or.inl (by decide)),
    checksum_accesses_in_bounds.2.2.2.1 SUM_MASK (by decide) CRC_IV _ _
      (fun j hj => by simp [hj])⟩

end OS21
